import Mathlib

/-!
Verification of the compounding-simulator and return-fetcher logic of
`src/stock_calculator.py`.

Real-valued quantities (investments, portfolio values, percentage returns,
closing prices) are modelled as rationals; Python float arithmetic is read
as exact real arithmetic.  Python `datetime` values are modelled as day
numbers in the proleptic Gregorian calendar (the calendar `datetime` uses),
with `strptime("%m/%Y")` giving day 1 of the month and
`timedelta(days = k)` adding `k` to the day number.
-/

namespace StockCalculator

/-- Day number of the proleptic Gregorian date `y-m-d` (days since the
epoch 1970-01-01), the standard civil-calendar conversion. -/
def daysFromCivil (y m d : ℤ) : ℤ :=
  let y2 := if m ≤ 2 then y - 1 else y
  let era := y2.ediv 400
  let yoe := y2 - era * 400
  let doy := (153 * (m + (if 2 < m then -3 else 9)) + 2).ediv 5 + d - 1
  let doe := yoe * 365 + yoe.ediv 4 - yoe.ediv 100 + doy
  era * 146097 + doe - 719468

/-- Inverse of `daysFromCivil`: the proleptic Gregorian date `(y, m, d)`
of a day number. -/
def civilFromDays (z0 : ℤ) : ℤ × ℤ × ℤ :=
  let z := z0 + 719468
  let era := z.ediv 146097
  let doe := z - era * 146097
  let yoe := (doe - doe.ediv 1460 + doe.ediv 36524 - doe.ediv 146096).ediv 365
  let y := yoe + era * 400
  let doy := doe - (365 * yoe + yoe.ediv 4 - yoe.ediv 100)
  let mp := (5 * doy + 2).ediv 153
  let d := doy - (153 * mp + 2).ediv 5 + 1
  let m := mp + (if mp < 10 then 3 else -9)
  (if m ≤ 2 then y + 1 else y, m, d)

/-- Zero-padded two-digit rendering, as `strftime("%m")` does. -/
def pad2 (n : ℤ) : String :=
  if n < 10 then ("0" ++ toString n) else toString n

/-- Zero-padded four-digit rendering, as `strftime("%Y")` does. -/
def pad4 (n : ℤ) : String :=
  if n < 10 then ("000" ++ toString n)
  else if n < 100 then ("00" ++ toString n)
  else if n < 1000 then ("0" ++ toString n)
  else toString n

/-- `d.strftime("%m/%Y")` for the datetime with day number `ord`. -/
def formatMY (ord : ℤ) : String :=
  let c := civilFromDays ord
  pad2 c.2.1 ++ "/" ++ pad4 c.1

/-- `datetime.strptime(start_date, "%m/%Y")` for the string `mm/yyyy`:
day 1 of month `m` of year `y`, as a day number. -/
def strptimeMY (m y : ℤ) : ℤ := daysFromCivil y m 1

/-- One printed row of `profit` (the data behind one `print` call):
month label and the four numeric columns. -/
structure Row where
  month : String
  total_investment : ℚ
  total_value : ℚ
  total_profit : ℚ
  monthly_profit : ℚ

instance : Inhabited Row := ⟨⟨"", 0, 0, 0, 0⟩⟩

/-- The `for month in range(1, len(monthly_returns) + 1)` loop of `profit`
(`src/stock_calculator.py` lines 76-94), one constructor per iteration.
`month` is the loop counter, `total_investment` and `total_value` the two
accumulators. -/
def profitRowsAux (monthly_investment : ℚ) (start_ord : ℤ) (month : ℤ)
    (total_investment total_value : ℚ) : List ℚ → List Row
  | [] => []
  | r :: rest =>
      let total_investment2 := total_investment + monthly_investment
      let total_value2 := total_value + monthly_investment
      let monthly_profit := total_value2 * (r / 100)
      let total_value3 := total_value2 + monthly_profit
      let total_profit := total_value3 - total_investment2
      let current_month := formatMY (start_ord + (month - 1) * 30)
      { month := current_month, total_investment := total_investment2,
        total_value := total_value3, total_profit := total_profit,
        monthly_profit := monthly_profit } ::
        profitRowsAux monthly_investment start_ord (month + 1)
          total_investment2 total_value3 rest

/-- `profit(initial_investment, monthly_investment, monthly_returns,
start_date = mm/yyyy)` with a supplied (non-None) return list: the list of
printed data rows.  Both accumulators start at `initial_investment`
(lines 66-67); the header lines carry no data and are not modelled. -/
def profit (initial_investment monthly_investment : ℚ)
    (monthly_returns : List ℚ) (sm sy : ℤ) : List Row :=
  profitRowsAux monthly_investment (strptimeMY sm sy) 1
    initial_investment initial_investment monthly_returns

/-- The five parallel series `profit_as_graph` accumulates and hands to the
plotting library (`x`, `total_value_list`, `total_investment_list`,
`total_profit_list`, `monthly_profit_list`). -/
structure GraphData where
  x : List String
  total_value_list : List ℚ
  total_investment_list : List ℚ
  total_profit_list : List ℚ
  monthly_profit_list : List ℚ

/-- The loop of `profit_as_graph` (`src/stock_calculator.py` lines
134-154): same arithmetic as `profitRowsAux`, appending each period's
values to the five accumulated series. -/
def graphLoopAux (monthly_investment : ℚ) (start_ord : ℤ) (month : ℤ)
    (total_investment total_value : ℚ) (acc : GraphData) : List ℚ → GraphData
  | [] => acc
  | r :: rest =>
      let total_investment2 := total_investment + monthly_investment
      let total_value2 := total_value + monthly_investment
      let monthly_profit := total_value2 * (r / 100)
      let total_value3 := total_value2 + monthly_profit
      let total_profit := total_value3 - total_investment2
      let current_month := formatMY (start_ord + (month - 1) * 30)
      graphLoopAux monthly_investment start_ord (month + 1)
        total_investment2 total_value3
        { x := acc.x ++ [current_month],
          total_value_list := acc.total_value_list ++ [total_value3],
          total_investment_list := acc.total_investment_list ++ [total_investment2],
          total_profit_list := acc.total_profit_list ++ [total_profit],
          monthly_profit_list := acc.monthly_profit_list ++ [monthly_profit] }
        rest

/-- `profit_as_graph(initial_investment, monthly_investment,
monthly_returns, start_date = mm/yyyy)` with a supplied (non-None) return
list: the five series fed to the chart.  All five start empty
(lines 126-130). -/
def profit_as_graph (initial_investment monthly_investment : ℚ)
    (monthly_returns : List ℚ) (sm sy : ℤ) : GraphData :=
  graphLoopAux monthly_investment (strptimeMY sm sy) 1
    initial_investment initial_investment
    ⟨[], [], [], [], []⟩ monthly_returns

/-- `Series.pct_change()` on the chronological closing prices: the first
entry is `none` (pandas NaN), the entry for each later position the
fractional change from the previous close.  Division is exact rational
division; the float NaN/inf produced by a zero previous close is outside
this model, so prices are taken nonzero where it matters. -/
def pct_change (closes : List ℚ) : List (Option ℚ) :=
  none :: (closes.zip closes.tail).map (fun pq => some ((pq.2 - pq.1) / pq.1))

/-- `get_monthly_returns` (`src/stock_calculator.py` lines 32-38) applied
to the provider's chronological monthly closes: multiply each percentage
change by 100, drop the NaN entry, return the list. -/
def get_monthly_returns (closes : List ℚ) : List ℚ :=
  ((pct_change closes).map (fun o => o.map (fun v => v * 100))).filterMap id

/-- The simulation's cumulative portfolio value series, 1-indexed by
period: period 0 is the starting value `initial_investment`, period
`i + 1` the `total_value` column of printed row `i`. -/
def cumulative_value (initial_investment monthly_investment : ℚ)
    (monthly_returns : List ℚ) (sm sy : ℤ) : ℕ → ℚ
  | 0 => initial_investment
  | i + 1 =>
      ((profit initial_investment monthly_investment monthly_returns sm sy).getD
        i default).total_value

/-- The simulation's cumulative contribution series, 1-indexed by period:
period 0 is `initial_investment`, period `i + 1` the `total_investment`
column of printed row `i`. -/
def cumulative_contribution (initial_investment monthly_investment : ℚ)
    (monthly_returns : List ℚ) (sm sy : ℤ) : ℕ → ℚ
  | 0 => initial_investment
  | i + 1 =>
      ((profit initial_investment monthly_investment monthly_returns sm sy).getD
        i default).total_investment

/-- The simulation's cumulative profit series: the `total_profit` column
of printed row `i` for period `i + 1` (0 before any period). -/
def cumulative_profit (initial_investment monthly_investment : ℚ)
    (monthly_returns : List ℚ) (sm sy : ℤ) : ℕ → ℚ
  | 0 => 0
  | i + 1 =>
      ((profit initial_investment monthly_investment monthly_returns sm sy).getD
        i default).total_profit

/-- The simulation's per-period profit series: the `monthly_profit` column
of printed row `i` for period `i + 1` (0 before any period). -/
def period_profit (initial_investment monthly_investment : ℚ)
    (monthly_returns : List ℚ) (sm sy : ℤ) : ℕ → ℚ
  | 0 => 0
  | i + 1 =>
      ((profit initial_investment monthly_investment monthly_returns sm sy).getD
        i default).monthly_profit

/-- The month label printed for period `i + 1` (empty before any
period). -/
def month_label (initial_investment monthly_investment : ℚ)
    (monthly_returns : List ℚ) (sm sy : ℤ) : ℕ → String
  | 0 => ""
  | i + 1 =>
      ((profit initial_investment monthly_investment monthly_returns sm sy).getD
        i default).month

/-- Reference recurrence for the running `total_value` accumulator,
starting from `tv`: each period adds the contribution and applies the
return. Used to characterise the loop rows. -/
def valueAt (monthly_investment : ℚ) (monthly_returns : List ℚ) (tv : ℚ) : ℕ → ℚ
  | 0 => tv
  | i + 1 =>
      (valueAt monthly_investment monthly_returns tv i + monthly_investment) *
        (1 + monthly_returns.getD i 0 / 100)

theorem valueAt_cons (mi r tv : ℚ) (rest : List ℚ) (i : ℕ) :
    valueAt mi (r :: rest) tv (i + 1) =
      valueAt mi rest ((tv + mi) * (1 + r / 100)) i := by
  induction i with
  | zero => simp [valueAt]
  | succ j ihj =>
      conv_lhs => rw [valueAt]
      rw [ihj, List.getD_cons_succ]
      conv_rhs => rw [valueAt]

theorem profitRowsAux_getD (mi : ℚ) (so : ℤ) (rets : List ℚ) :
    ∀ (m : ℤ) (ti tv : ℚ) (i : ℕ), i < rets.length →
      (profitRowsAux mi so m ti tv rets).getD i default =
        { month := formatMY (so + (m + i - 1) * 30),
          total_investment := ti + (i + 1) * mi,
          total_value := valueAt mi rets tv (i + 1),
          total_profit := valueAt mi rets tv (i + 1) - (ti + (i + 1) * mi),
          monthly_profit :=
            (valueAt mi rets tv i + mi) * (rets.getD i 0 / 100) } := by
  induction rets with
  | nil => intro m ti tv i h; simp at h
  | cons r rest ih =>
      intro m ti tv i h
      cases i with
      | zero =>
          simp only [profitRowsAux, List.getD_cons_zero, valueAt,
            Nat.cast_zero, Row.mk.injEq]
          refine ⟨?_, ?_, ?_, ?_, ?_⟩ <;>
            first
              | trivial
              | (push_cast; ring)
      | succ j =>
          have h2 : j < rest.length := by simpa using h
          simp only [profitRowsAux, List.getD_cons_succ]
          rw [ih (m + 1) (ti + mi) ((tv + mi) + (tv + mi) * (r / 100)) j h2]
          have e : (tv + mi) + (tv + mi) * (r / 100) =
              (tv + mi) * (1 + r / 100) := by ring
          rw [e]
          simp only [← valueAt_cons, Row.mk.injEq, List.getD_cons_succ]
          refine ⟨?_, ?_, ?_, ?_, ?_⟩ <;>
            first
              | trivial
              | (push_cast; ring)

theorem cumulative_value_eq (init mi : ℚ) (rets : List ℚ) (sm sy : ℤ)
    (i : ℕ) (h : i ≤ rets.length) :
    cumulative_value init mi rets sm sy i = valueAt mi rets init i := by
  cases i with
  | zero => rfl
  | succ j =>
      simp only [cumulative_value, profit]
      rw [profitRowsAux_getD mi _ rets 1 init init j h]

theorem cumulative_contribution_eq (init mi : ℚ) (rets : List ℚ) (sm sy : ℤ)
    (i : ℕ) (h : i ≤ rets.length) :
    cumulative_contribution init mi rets sm sy i = init + i * mi := by
  cases i with
  | zero => simp [cumulative_contribution]
  | succ j =>
      simp only [cumulative_contribution, profit]
      rw [profitRowsAux_getD mi _ rets 1 init init j h]
      push_cast
      ring

/-- C1: for every initial_investment, monthly_investment and ordered
return list, the simulation's cumulative value satisfies
`cumulative_value 0 = initial_investment` and, for each period `i ≥ 1`
in range, `cumulative_value i = (cumulative_value (i-1) +
monthly_investment) * (1 + return_i / 100)`: the period's contribution is
added before the period's return is applied. -/
theorem c1_value_recurrence (init mi : ℚ) (rets : List ℚ) (sm sy : ℤ)
    (i : ℕ) (h1 : 1 ≤ i) (h2 : i ≤ rets.length) :
    cumulative_value init mi rets sm sy 0 = init ∧
    cumulative_value init mi rets sm sy i =
      (cumulative_value init mi rets sm sy (i - 1) + mi) *
        (1 + rets.getD (i - 1) 0 / 100) := by
  obtain ⟨j, rfl⟩ : ∃ j, i = j + 1 := ⟨i - 1, (Nat.succ_pred_eq_of_pos h1).symm⟩
  refine ⟨rfl, ?_⟩
  rw [cumulative_value_eq init mi rets sm sy (j + 1) h2,
    Nat.add_sub_cancel,
    cumulative_value_eq init mi rets sm sy j (by omega)]
  rw [valueAt]

theorem c1_value_recurrence_witness :
    cumulative_value 1000 100 [10] 1 2020 0 = 1000 ∧
    cumulative_value 1000 100 [10] 1 2020 1 =
      (cumulative_value 1000 100 [10] 1 2020 (1 - 1) + 100) *
        (1 + List.getD [10] (1 - 1) 0 / 100) :=
  c1_value_recurrence 1000 100 [10] 1 2020 1 (by decide) (by decide)

/-- C2: for every period `i ≥ 1` of a (necessarily non-empty) return
list, the cumulative profit reported for period `i` equals the cumulative
value at period `i` minus the cumulative contribution at period `i`. -/
theorem c2_profit_is_value_minus_contribution (init mi : ℚ)
    (rets : List ℚ) (sm sy : ℤ) (i : ℕ) (h1 : 1 ≤ i)
    (h2 : i ≤ rets.length) :
    cumulative_profit init mi rets sm sy i =
      cumulative_value init mi rets sm sy i -
        cumulative_contribution init mi rets sm sy i := by
  obtain ⟨j, rfl⟩ : ∃ j, i = j + 1 := ⟨i - 1, (Nat.succ_pred_eq_of_pos h1).symm⟩
  simp only [cumulative_profit, cumulative_value, cumulative_contribution,
    profit]
  rw [profitRowsAux_getD mi _ rets 1 init init j h2]

theorem c2_profit_is_value_minus_contribution_witness :
    cumulative_profit 1000 100 [10, -10] 1 2020 2 =
      cumulative_value 1000 100 [10, -10] 1 2020 2 -
        cumulative_contribution 1000 100 [10, -10] 1 2020 2 :=
  c2_profit_is_value_minus_contribution 1000 100 [10, -10] 1 2020 2
    (by decide) (by decide)

/-- C3: for every period `i ≥ 1` in range, the per-period profit equals
the change in portfolio value caused by applying that period's return
alone, excluding the new contribution:
`period_profit i = (cumulative_value (i-1) + monthly_investment) *
(return_i / 100)`. -/
theorem c3_period_profit_from_return_step (init mi : ℚ) (rets : List ℚ)
    (sm sy : ℤ) (i : ℕ) (h1 : 1 ≤ i) (h2 : i ≤ rets.length) :
    period_profit init mi rets sm sy i =
      (cumulative_value init mi rets sm sy (i - 1) + mi) *
        (rets.getD (i - 1) 0 / 100) := by
  obtain ⟨j, rfl⟩ : ∃ j, i = j + 1 := ⟨i - 1, (Nat.succ_pred_eq_of_pos h1).symm⟩
  rw [Nat.add_sub_cancel, cumulative_value_eq init mi rets sm sy j (by omega)]
  simp only [period_profit, profit]
  rw [profitRowsAux_getD mi _ rets 1 init init j h2]

theorem c3_period_profit_from_return_step_witness :
    period_profit 1000 100 [10, -10] 1 2020 2 =
      (cumulative_value 1000 100 [10, -10] 1 2020 (2 - 1) + 100) *
        (List.getD [10, -10] (2 - 1) 0 / 100) :=
  c3_period_profit_from_return_step 1000 100 [10, -10] 1 2020 2
    (by decide) (by decide)

/-- C4: with monthly_investment = 0 and a single return `r`, the final
cumulative value produced by the simulation (period 1) equals
`initial_investment * (1 + r / 100)`. -/
theorem c4_single_return_final_value (init r : ℚ) (sm sy : ℤ) :
    cumulative_value init 0 [r] sm sy 1 = init * (1 + r / 100) := by
  rw [cumulative_value_eq init 0 [r] sm sy 1 (by simp), valueAt, valueAt]
  simp

theorem getD_zero_of_all_zero {rets : List ℚ} (hz : ∀ r ∈ rets, r = 0)
    (k : ℕ) : rets.getD k 0 = 0 := by
  induction rets generalizing k with
  | nil => simp
  | cons a l ihl =>
      cases k with
      | zero => simpa using hz a (by simp)
      | succ j =>
          rw [List.getD_cons_succ]
          exact ihl (fun r hr => hz r (by simp [hr])) j

theorem valueAt_all_zero (init mi : ℚ) {rets : List ℚ}
    (hz : ∀ r ∈ rets, r = 0) (j : ℕ) :
    valueAt mi rets init j = init + j * mi := by
  induction j with
  | zero => simp [valueAt]
  | succ k ihk =>
      rw [valueAt, ihk, getD_zero_of_all_zero hz k]
      push_cast
      ring

/-- C5: if every monthly return in the list is 0, then for every period
`i` in range the cumulative value equals the cumulative contribution, and
hence the cumulative profit at every period `i ≥ 1` is 0. -/
theorem c5_zero_returns_value_eq_contribution (init mi : ℚ)
    (rets : List ℚ) (sm sy : ℤ) (hz : ∀ r ∈ rets, r = 0) (i : ℕ)
    (h : i ≤ rets.length) :
    cumulative_value init mi rets sm sy i =
      cumulative_contribution init mi rets sm sy i ∧
    (1 ≤ i → cumulative_profit init mi rets sm sy i = 0) := by
  constructor
  · rw [cumulative_value_eq init mi rets sm sy i h,
      cumulative_contribution_eq init mi rets sm sy i h,
      valueAt_all_zero init mi hz i]
  · intro h1
    obtain ⟨j, rfl⟩ : ∃ j, i = j + 1 :=
      ⟨i - 1, (Nat.succ_pred_eq_of_pos h1).symm⟩
    simp only [cumulative_profit, profit]
    rw [profitRowsAux_getD mi _ rets 1 init init j h]
    dsimp only
    rw [valueAt_all_zero init mi hz (j + 1)]
    push_cast
    ring

theorem c5_zero_returns_value_eq_contribution_witness :
    (cumulative_value 500 50 [0, 0] 1 2020 2 =
      cumulative_contribution 500 50 [0, 0] 1 2020 2 ∧
    (1 ≤ 2 → cumulative_profit 500 50 [0, 0] 1 2020 2 = 0)) :=
  c5_zero_returns_value_eq_contribution 500 50 [0, 0] 1 2020
    (by decide) 2 (by decide)

/-- C6: for initial_investment = 1000, monthly_investment = 0 and
monthly_returns = [10, -10], the simulation produces period-1 value 1100
and period profit 100, and period-2 value 990, period profit -110 and
cumulative profit -10 (start date 01/2020, the source default). -/
theorem c6_worked_example :
    cumulative_value 1000 0 [10, -10] 1 2020 1 = 1100 ∧
    period_profit 1000 0 [10, -10] 1 2020 1 = 100 ∧
    cumulative_value 1000 0 [10, -10] 1 2020 2 = 990 ∧
    period_profit 1000 0 [10, -10] 1 2020 2 = -110 ∧
    cumulative_profit 1000 0 [10, -10] 1 2020 2 = -10 := by
  refine ⟨?_, ?_, ?_, ?_, ?_⟩ <;>
    · simp only [cumulative_value, period_profit, cumulative_profit, profit,
        profitRowsAux, List.getD_cons_zero, List.getD_cons_succ]
      norm_num

/-- C7: for every period `i ≥ 1` in range and every start month/year, the
month label emitted for period `i` is the start date advanced by exactly
`(i - 1) * 30` days, rendered as `mm/yyyy` — day stepping, not true
calendar-month arithmetic. -/
theorem c7_month_label_thirty_day_steps (init mi : ℚ) (rets : List ℚ)
    (sm sy : ℤ) (i : ℕ) (h1 : 1 ≤ i) (h2 : i ≤ rets.length) :
    month_label init mi rets sm sy i =
      formatMY (strptimeMY sm sy + ((i : ℤ) - 1) * 30) := by
  obtain ⟨j, rfl⟩ : ∃ j, i = j + 1 := ⟨i - 1, (Nat.succ_pred_eq_of_pos h1).symm⟩
  simp only [month_label, profit]
  rw [profitRowsAux_getD mi _ rets 1 init init j h2]
  show formatMY (strptimeMY sm sy + (1 + (j : ℤ) - 1) * 30) = _
  congr 2
  push_cast
  ring

theorem c7_month_label_thirty_day_steps_witness :
    month_label 0 0 [0, 0] 1 2020 2 =
      formatMY (strptimeMY 1 2020 + ((2 : ℤ) - 1) * 30) :=
  c7_month_label_thirty_day_steps 0 0 [0, 0] 1 2020 2 (by decide) (by decide)

/-- C8: with an empty return list the loop runs zero iterations: the
tabular mode produces no data rows and the chart mode's four (plus label)
series are all empty. -/
theorem c8_empty_returns_no_rows (init mi : ℚ) (sm sy : ℤ) :
    profit init mi [] sm sy = [] ∧
    profit_as_graph init mi [] sm sy =
      { x := [], total_value_list := [], total_investment_list := [],
        total_profit_list := [], monthly_profit_list := [] } :=
  ⟨rfl, rfl⟩

theorem filterMap_some_chain {α : Type} (f : α → ℚ) (h : ℚ → ℚ)
    (l : List α) :
    ((l.map (fun a => some (f a))).map
        (fun o => Option.map h o)).filterMap id = l.map (fun a => h (f a)) := by
  induction l with
  | nil => rfl
  | cons a t ih =>
      simp only [List.filterMap_map, Function.comp_def, Option.map_some',
        id_eq] at ih ⊢
      simp [ih]

theorem get_monthly_returns_eq_zipMap (closes : List ℚ) :
    get_monthly_returns closes =
      (closes.zip closes.tail).map
        (fun pq => (pq.2 - pq.1) / pq.1 * 100) := by
  have hc := filterMap_some_chain (fun pq : ℚ × ℚ => (pq.2 - pq.1) / pq.1)
    (fun v => v * 100) (closes.zip closes.tail)
  simp only [get_monthly_returns, pct_change, List.map_cons,
    Option.map_none', List.filterMap_cons, id] at hc ⊢
  exact hc

/-- C9: given the provider's chronological closes `p_1 .. p_n` (`n ≥ 1`),
`get_monthly_returns` returns exactly `n - 1` values in order, the `i`-th
being the percentage change `(p_{i+1} - p_i) / p_i * 100` between
consecutive closes, the undefined first-period change having been
dropped. -/
theorem c9_returns_are_consecutive_pct_changes (closes : List ℚ)
    (h : 1 ≤ closes.length) :
    (get_monthly_returns closes).length = closes.length - 1 ∧
    ∀ i, i + 1 < closes.length →
      (get_monthly_returns closes).getD i 0 =
        (closes.getD (i + 1) 0 - closes.getD i 0) / closes.getD i 0 * 100 := by
  rw [get_monthly_returns_eq_zipMap]
  constructor
  · rw [List.length_map, List.length_zip, List.length_tail]
    omega
  · intro i hi
    have hz : i < (closes.zip closes.tail).length := by
      rw [List.length_zip, List.length_tail]
      omega
    have ht : i < closes.tail.length := by
      rw [List.length_tail]
      omega
    rw [List.getD_eq_getElem _ _ (by rwa [List.length_map]),
      List.getElem_map, List.getElem_zip, List.getElem_tail,
      List.getD_eq_getElem _ _ (by omega : i + 1 < closes.length),
      List.getD_eq_getElem _ _ (by omega : i < closes.length)]

theorem c9_returns_are_consecutive_pct_changes_witness :
    (get_monthly_returns [100, 110, 99]).length = [(100 : ℚ), 110, 99].length - 1 ∧
    ∀ i, i + 1 < [(100 : ℚ), 110, 99].length →
      (get_monthly_returns [100, 110, 99]).getD i 0 =
        (List.getD [(100 : ℚ), 110, 99] (i + 1) 0 -
            List.getD [(100 : ℚ), 110, 99] i 0) /
          List.getD [(100 : ℚ), 110, 99] i 0 * 100 :=
  c9_returns_are_consecutive_pct_changes [100, 110, 99] (by decide)

theorem graphLoopAux_eq (mi : ℚ) (so : ℤ) (rets : List ℚ) :
    ∀ (m : ℤ) (ti tv : ℚ) (acc : GraphData),
      graphLoopAux mi so m ti tv acc rets =
        { x := acc.x ++ (profitRowsAux mi so m ti tv rets).map Row.month,
          total_value_list := acc.total_value_list ++
            (profitRowsAux mi so m ti tv rets).map Row.total_value,
          total_investment_list := acc.total_investment_list ++
            (profitRowsAux mi so m ti tv rets).map Row.total_investment,
          total_profit_list := acc.total_profit_list ++
            (profitRowsAux mi so m ti tv rets).map Row.total_profit,
          monthly_profit_list := acc.monthly_profit_list ++
            (profitRowsAux mi so m ti tv rets).map Row.monthly_profit } := by
  induction rets with
  | nil => intro m ti tv acc; simp [graphLoopAux, profitRowsAux]
  | cons r rest ihr =>
      intro m ti tv acc
      simp only [graphLoopAux, profitRowsAux, List.map_cons]
      rw [ihr]
      simp [List.append_assoc]

/-- C10: on identical inputs (with a supplied return list), the tabular
function and the chart function compute exactly the same per-period
sequences of month label, cumulative value, cumulative contribution,
cumulative profit and period profit: the two duplicated loops are
equivalent. -/
theorem c10_graph_loop_refines_print_loop (init mi : ℚ) (rets : List ℚ)
    (sm sy : ℤ) :
    profit_as_graph init mi rets sm sy =
      { x := (profit init mi rets sm sy).map Row.month,
        total_value_list := (profit init mi rets sm sy).map Row.total_value,
        total_investment_list :=
          (profit init mi rets sm sy).map Row.total_investment,
        total_profit_list := (profit init mi rets sm sy).map Row.total_profit,
        monthly_profit_list :=
          (profit init mi rets sm sy).map Row.monthly_profit } := by
  unfold profit_as_graph profit
  rw [graphLoopAux_eq]
  simp

end StockCalculator
